import Mathlib

/-!
Shallow embedding of the jitdash CI-dashboard program (source files
`src/jitdash.go` and `src/unnamed/part_000`) together with proofs of the
behavioural claims about its JSON extraction pipeline, build-list
maintenance and sparkline renderer.

JSON values decoded by Go's `encoding/json` into `interface{}` are modelled
by the inductive type `JVal`; a decoded top-level object (`JsonObject` in
the source) is a finite list of key/value bindings with unique keys.
Numbers surface either as `float64` or as `json.Number`; here both carry
the exact integer value they denote, since every numeric field the program
reads (`number`, `timestamp`, `failCount`, `maxBuilds`) is integral.  A
`float64` payload outside the exactly-representable integer range and
non-integral literals are outside the model; theorems that depend on the
`float64` branch carry an explicit representability bound.

Network transport and JSON decoding are modelled by passing each fetch's
outcome as an `Except FetchErr JsonObject` value: `Except.error` covers
transport failure and malformed-document failure, mirroring the source's
early `return err` / `continue` paths.
-/

namespace Jitdash

/-- Dynamically-typed JSON value, the model of Go's decoded `interface{}`.
`float64 n` is a float64 whose value is exactly the integer `n`;
`number n` is a `json.Number` literal denoting the integer `n`. -/
inductive JVal : Type where
  | null : JVal
  | str : String → JVal
  | boolean : Bool → JVal
  | float64 : Int → JVal
  | number : Int → JVal
  | arr : List JVal → JVal
  | obj : List (String × JVal) → JVal

/-- Model of the source's `JsonObject` (`map[string]interface{}`): an
association list with unique keys; lookup takes the first binding. -/
abbrev JsonObject := List (String × JVal)

/-- Model of `AsJsonObject`: the type assertion `i.(map[string]interface{})`. -/
def AsJsonObject : JVal → Option JsonObject
  | JVal.obj fields => some fields
  | _ => none

/-- Map lookup on a decoded object. -/
def jlookup (o : JsonObject) (key : String) : Option JVal :=
  List.lookup key o

/-- Model of `JsonObject.GetString`: `(s, true)` becomes `some s`;
`("", false)` (key absent or not a string) becomes `none`. -/
def GetString (o : JsonObject) (key : String) : Option String :=
  match jlookup o key with
  | some (JVal.str s) => some s
  | _ => none

/-- Model of `JsonObject.GetInt64`.  The `json.Number` branch calls
`Int64()`, which fails outside the int64 range; the `float64` branch is
the conversion `int64(v)`, which on an exactly-representable in-range
integer value returns that integer (conversion of other values is
implementation-dependent in Go and outside this model). -/
def GetInt64 (o : JsonObject) (key : String) : Option Int :=
  match jlookup o key with
  | some (JVal.number n) =>
    if -9223372036854775808 ≤ n ∧ n < 9223372036854775808 then some n else none
  | some (JVal.float64 n) => some n
  | _ => none

/-- Model of `JsonObject.GetBool`. -/
def GetBool (o : JsonObject) (key : String) : Option Bool :=
  match jlookup o key with
  | some (JVal.boolean b) => some b
  | _ => none

/-- Model of `JsonObject.GetArray`. -/
def GetArray (o : JsonObject) (key : String) : Option (List JVal) :=
  match jlookup o key with
  | some (JVal.arr elems) => some elems
  | _ => none

/-- The `Build` record.  `Timestamp` holds the Unix seconds value computed
by `time.Unix(unixMilliseconds / 1000, 0)`.  Zero values of the Go struct
correspond to `Timestamp = 0`, `Failures = 0`, `Complete = false`. -/
structure Build : Type where
  Id : Int
  Url : String
  Timestamp : Int
  Failures : Int
  Complete : Bool
deriving DecidableEq

/-- The `Job` record. -/
structure Job : Type where
  Name : String
  Url : String
  Builds : List Build
deriving DecidableEq

/-- Failure outcomes of a detail fetch: transport error, JSON decode error,
and the two sentinel errors `missingResultError` / `missingTimestampError`
declared in the source. -/
inductive FetchErr : Type where
  | network : FetchErr
  | decode : FetchErr
  | missingResult : FetchErr
  | missingTimestamp : FetchErr
deriving DecidableEq

/-- One iteration of the `actions` loop in `FetchDetails`: an entry whose
`_class` is `hudson.tasks.junit.TestResultAction` overwrites the running
`failures` with that entry's `failCount` (0 when the field is absent or
not numeric, because Go's blank-ok assignment keeps `GetInt64`'s zero
result); every other entry leaves it alone (`continue`). -/
def failScanStep (failures : Int) (a : JVal) : Int :=
  match AsJsonObject a with
  | none => failures
  | some action =>
    match GetString action "_class" with
    | none => failures
    | some cls =>
      if cls = "hudson.tasks.junit.TestResultAction" then
        (GetInt64 action "failCount").getD 0
      else failures

/-- The accumulate-and-overwrite loop over `actions` in `FetchDetails`:
`failures` starts at 0 and is threaded through `failScanStep`. -/
def extractFailures (actions : List JVal) : Int :=
  actions.foldl failScanStep 0

/-- Model of `Build.FetchDetails`.  The Go method mutates the receiver and
returns an error; here it returns the final build together with the error
(`none` on success).  `resp` is the outcome of fetching and decoding the
detail page (`Except.error` covers the `http.Get` / `Decode` failure
paths). -/
def FetchDetails (b : Build) (resp : Except FetchErr JsonObject) :
    Build × Option FetchErr :=
  match resp with
  | Except.error e => (b, some e)
  | Except.ok details =>
    match GetString details "result" with
    | none => (b, some FetchErr.missingResult)
    | some result =>
      match GetInt64 details "timestamp" with
      | none => (b, some FetchErr.missingTimestamp)
      | some unixMilliseconds =>
        let b1 := { b with Timestamp := Int.tdiv unixMilliseconds 1000 }
        let building := (GetBool details "building").getD (result == "")
        let b2 := { b1 with Complete := !building }
        let failures := extractFailures ((GetArray details "actions").getD [])
        let failures := if failures = 0 ∧ result = "FAILURE" then -1 else failures
        ({ b2 with Failures := failures }, none)

/-- Model of `Instance.ProcessBuildObject`: accepts an object tagged
`hudson.model.FreeStyleBuild` carrying `number` and `url`, producing a
stub build (zero-valued timestamp/failures/complete). -/
def ProcessBuildObject (v : JVal) : Option Build :=
  match AsJsonObject v with
  | none => none
  | some build =>
    match GetString build "_class" with
    | none => none
    | some cls =>
      if cls = "hudson.model.FreeStyleBuild" then
        match GetInt64 build "number" with
        | none => none
        | some id =>
          match GetString build "url" with
          | none => none
          | some url =>
            some { Id := id, Url := url, Timestamp := 0, Failures := 0, Complete := false }
      else none

/-- The ordering used by `BuildSorter.Less` (strict `<` on ids); sortedness
of the output of Go's `sort.Sort` is non-strict: no later element is
`Less` than an earlier one, i.e. ids are non-decreasing. -/
def buildLe (a b : Build) : Prop := a.Id ≤ b.Id

instance : DecidableRel buildLe :=
  fun a b => inferInstanceAs (Decidable (a.Id ≤ b.Id))

instance : IsTotal Build buildLe := ⟨fun a b => Int.le_total a.Id b.Id⟩

instance : IsTrans Build buildLe := ⟨fun _ _ _ h1 h2 => Int.le_trans h1 h2⟩

/-- Model of `sort.Sort(BuildSorter(builds))`: an unspecified comparison
sort producing a permutation that is non-decreasing by id; insertion sort
is the concrete representative. -/
def sortBuilds (bs : List Build) : List Build :=
  List.insertionSort buildLe bs

/-- Model of `Instance.ProcessJobObject` (the snapshot in
`src/unnamed/part_000`, which sorts the extracted builds and defers
truncation and detail fetching to `main`).  `exclude` models the compiled
exclusion patterns as string predicates; `fetch` models the job-listing
HTTP fetch plus decode. -/
def ProcessJobObject (exclude : List (String → Bool)) (v : JVal)
    (fetch : String → Except FetchErr JsonObject) : Option Job :=
  match AsJsonObject v with
  | none => none
  | some job =>
    match GetString job "_class" with
    | none => none
    | some cls =>
      if cls = "hudson.model.FreeStyleProject" then
        match GetString job "name" with
        | none => none
        | some name =>
          if exclude.any (fun ex => ex name) then none
          else
            match GetString job "url" with
            | none => none
            | some url =>
              match fetch (url ++ "api/json") with
              | Except.error _ => none
              | Except.ok details =>
                match GetArray details "builds" with
                | none => none
                | some buildObjects =>
                  some { Name := name, Url := url,
                         Builds := sortBuilds (buildObjects.filterMap ProcessBuildObject) }
      else none

/-- Per-folder step of `Instance.FetchJobs` as written in `src/jitdash.go`:
fetch and decode the folder listing, require the discriminator
`_class = "com.cloudbees.hudson.plugins.folder.Folder"`, then map the
job processor over the `jobs` array; every failure mode contributes the
empty job list (`continue` in the source). -/
def ProcessFolder (processJob : JVal → Option Job)
    (resp : Except FetchErr JsonObject) : List Job :=
  match resp with
  | Except.error _ => []
  | Except.ok folder =>
    match GetString folder "_class" with
    | none => []
    | some cls =>
      if cls = "com.cloudbees.hudson.plugins.folder.Folder" then
        match GetArray folder "jobs" with
        | none => []
        | some jobObjects => jobObjects.filterMap processJob
      else []

/-- Model of `Instance.FetchJobs` (`src/jitdash.go`): accumulate the jobs
of each folder in order.  `folderResponses` pairs each configured folder
URL with its fetch/decode outcome. -/
def FetchJobs (processJob : JVal → Option Job)
    (folderResponses : List (Except FetchErr JsonObject)) : List Job :=
  folderResponses.foldl (fun jobs f => jobs ++ ProcessFolder processJob f) []

/-- Model of the retention truncation
`if len(j.Builds) > int(maxBuilds) { j.Builds = j.Builds[len(j.Builds)-int(maxBuilds):] }`
performed in `main` (and equivalently inside `ProcessJobObject` in the
`src/jitdash.go` snapshot).  The slice expression `s[low:]` panics when
`low < 0` or `low > len(s)`; the panic is modelled by `none`. -/
def TruncateBuilds (bs : List Build) (maxBuilds : Int) : Option (List Build) :=
  if (bs.length : Int) > maxBuilds then
    let low : Int := (bs.length : Int) - maxBuilds
    if 0 ≤ low ∧ low ≤ (bs.length : Int) then some (bs.drop low.toNat) else none
  else some bs

/-- One rendered history cell: `spark i` is the glyph `sparks[i]` of the
8-rune alphabet, `building` is the fixed `'B'` glyph used for incomplete
builds.  The index is kept as an unbounded integer so that out-of-range
indexing (a Go panic) remains expressible. -/
inductive Glyph : Type where
  | spark : Int → Glyph
  | building : Glyph
deriving DecidableEq

/-- The default-branch index computation of `RenderHistory`:
`1 + int(percentile * float64(len(sparks)-2))` with
`percentile = float64(f) / float64(max)`, i.e. `1` plus the
toward-zero-truncated value of `6·f/max`. -/
def sparkIndex (f mx : Int) : Int :=
  1 + Int.tdiv (6 * f) mx

/-- Glyph selection for one build in the render loop, given the window
maximum `mx`: complete builds dispatch on `Failures` (0 ↦ `sparks[0]`,
-1 ↦ `sparks[len(sparks)-1]`, otherwise the quantized index); incomplete
builds always get the building glyph. -/
def buildGlyph (mx : Int) (b : Build) : Glyph :=
  if b.Complete then
    if b.Failures = 0 then Glyph.spark 0
    else if b.Failures = -1 then Glyph.spark 7
    else Glyph.spark (sparkIndex b.Failures mx)
  else Glyph.building

/-- One iteration of the `max` scan of `RenderHistory`: replace the
accumulator whenever the build's `Failures` exceeds it. -/
def failMaxStep (m : Int) (b : Build) : Int :=
  if b.Failures > m then b.Failures else m

/-- The `max` scan of `RenderHistory`: starting from 0, fold `failMaxStep`
over the displayed window.  Note the scan ranges over every build of the
window, complete or not. -/
def windowMax (bs : List Build) : Int :=
  bs.foldl failMaxStep 0

/-- The trailing window displayed by `RenderHistory`: the builds from
index `len - count` onward (the whole list when `count ≥ len`, matching
the source where the padding loop first lowers `count` to `len`). -/
def historyWindow (bs : List Build) (count : Nat) : List Build :=
  bs.drop (bs.length - count)

/-- Model of `Job.RenderHistory` restricted to the glyph sequence (the
hyperlink/tooltip string assembly around each glyph is string templating
outside this core): left-pad with `sparks[0]` when `count` exceeds the
build count, then render the trailing window against its own max. -/
def RenderHistory (bs : List Build) (count : Nat) : List Glyph :=
  List.replicate (count - bs.length) (Glyph.spark 0)
    ++ (historyWindow bs count).map (buildGlyph (windowMax (historyWindow bs count)))

/-- Modelled from the spec: the bucketing maximum as the specification
words it, namely the largest `failures` value among the builds of the
window that have `complete = true` only.  Used solely to compare the
spec's wording against the source's `windowMax`. -/
def specCompleteMax (bs : List Build) : Int :=
  (bs.filter (fun b => b.Complete)).foldl failMaxStep 0

/-- Discriminator test used by the failure-count scan: the entry is an
object whose `_class` is `hudson.tasks.junit.TestResultAction`. -/
def isTestResultAction (a : JVal) : Bool :=
  match AsJsonObject a with
  | none => false
  | some action =>
    match GetString action "_class" with
    | none => false
    | some cls => cls == "hudson.tasks.junit.TestResultAction"

/-- Declarative reading of the failure-count extraction: the `failCount`
of the last test-result action in the list (0 when the field is missing
from it), or 0 when no such action exists. -/
def specLastFailCount (actions : List JVal) : Int :=
  match (actions.filter isTestResultAction).getLast? with
  | none => 0
  | some a => ((AsJsonObject a).bind (fun o => GetInt64 o "failCount")).getD 0

/-- Concrete stub build, as produced by `ProcessBuildObject` before any
detail fetch. -/
def exStub : Build :=
  { Id := 1, Url := "http://x/job/job1/1/", Timestamp := 0, Failures := 0, Complete := false }

/-- Concrete build list for the `RenderHistory` max-scan counterexample:
an incomplete build carrying 5 failures followed by a complete build with
2 failures. -/
def exBuildsC1 : List Build :=
  [{ Id := 1, Url := "u1/", Timestamp := 0, Failures := 5, Complete := false },
   { Id := 2, Url := "u2/", Timestamp := 0, Failures := 2, Complete := true }]

/-- Concrete detail document for the sentinel counterexample: the last
test-result action reports `failCount = -1` while the overall result is
`SUCCESS`. -/
def exDetailsC2 : JsonObject :=
  [("result", JVal.str "SUCCESS"), ("timestamp", JVal.float64 0),
   ("actions", JVal.arr [JVal.obj [("_class", JVal.str "hudson.tasks.junit.TestResultAction"),
                                   ("failCount", JVal.float64 (-1))]])]

/-- Concrete detail document of a failed run with no test-result action. -/
def exDetailsFail : JsonObject :=
  [("result", JVal.str "FAILURE"), ("timestamp", JVal.float64 1500),
   ("building", JVal.boolean false)]

/-- Concrete job-listing entry of class `hudson.model.FreeStyleProject`. -/
def exJobObj : JVal :=
  JVal.obj [("_class", JVal.str "hudson.model.FreeStyleProject"),
            ("name", JVal.str "job1"), ("url", JVal.str "http://x/job/job1/")]

/-- Concrete job detail document listing two builds in descending id
order, exercising the sort. -/
def exJobDetails : JsonObject :=
  [("builds", JVal.arr
     [JVal.obj [("_class", JVal.str "hudson.model.FreeStyleBuild"),
                ("number", JVal.float64 2), ("url", JVal.str "u2/")],
      JVal.obj [("_class", JVal.str "hudson.model.FreeStyleBuild"),
                ("number", JVal.float64 1), ("url", JVal.str "u1/")]])]

/-- The job `ProcessJobObject` produces from `exJobObj`/`exJobDetails`. -/
def exJobOut : Job :=
  { Name := "job1", Url := "http://x/job/job1/",
    Builds := [{ Id := 1, Url := "u1/", Timestamp := 0, Failures := 0, Complete := false },
               { Id := 2, Url := "u2/", Timestamp := 0, Failures := 0, Complete := false }] }

/-- Concrete folder listing whose `_class` is not the folder tag although
it carries a well-formed `jobs` array. -/
def exBadFolder : JsonObject :=
  [("_class", JVal.str "hudson.model.ListView"), ("jobs", JVal.arr [exJobObj])]

/-- Concrete folder listing with the folder tag and one job. -/
def exGoodFolder : JsonObject :=
  [("_class", JVal.str "com.cloudbees.hudson.plugins.folder.Folder"),
   ("jobs", JVal.arr [exJobObj])]

/-- The job processor instantiated with no exclusions and the concrete
job-detail response, used by the `FetchJobs` witness. -/
def exProcessJob (v : JVal) : Option Job :=
  ProcessJobObject [] v (fun _ => Except.ok exJobDetails)

/-- Concrete sorted build list of length 3 for the truncation witness. -/
def exBuildsTrunc : List Build :=
  [{ Id := 1, Url := "a/", Timestamp := 0, Failures := 0, Complete := false },
   { Id := 2, Url := "b/", Timestamp := 0, Failures := 0, Complete := false },
   { Id := 3, Url := "c/", Timestamp := 0, Failures := 0, Complete := false }]

/-- Concrete complete builds for the quantization witness: a pass, a
sentinel failure, and one in-window build with 2 failures. -/
def exPassBuild : Build :=
  { Id := 1, Url := "p/", Timestamp := 0, Failures := 0, Complete := true }

def exSentinelBuild : Build :=
  { Id := 2, Url := "s/", Timestamp := 0, Failures := -1, Complete := true }

def exPositiveBuild : Build :=
  { Id := 3, Url := "q/", Timestamp := 0, Failures := 2, Complete := true }

/-- Singleton window containing the complete 2-failure build. -/
def exWindowBuilds : List Build := [exPositiveBuild]

/-! ### Helper lemmas about the max scan -/

/-- The max-scan fold never goes below its starting accumulator. -/
theorem le_foldl_failMaxStep (l : List Build) : ∀ init : Int,
    init ≤ l.foldl failMaxStep init := by
  induction l with
  | nil => intro init; exact le_refl _
  | cons a l ih =>
    intro init
    rw [List.foldl_cons]
    refine le_trans ?_ (ih (failMaxStep init a))
    unfold failMaxStep
    split_ifs with h <;> omega

/-- Every build scanned bounds from below the result of the max-scan fold. -/
theorem mem_le_foldl_failMaxStep (l : List Build) : ∀ (init : Int) (b : Build), b ∈ l →
    b.Failures ≤ l.foldl failMaxStep init := by
  induction l with
  | nil => intro _ b hb; cases hb
  | cons a l ih =>
    intro init b hb
    rw [List.foldl_cons]
    cases hb with
    | head =>
      refine le_trans ?_ (le_foldl_failMaxStep l (failMaxStep init a))
      unfold failMaxStep
      split_ifs with h <;> omega
    | tail _ hb => exact ih (failMaxStep init a) b hb

/-- The max-scan fold returns either its starting accumulator or the
`Failures` value of some scanned build. -/
theorem foldl_failMaxStep_attained (l : List Build) : ∀ init : Int,
    l.foldl failMaxStep init = init ∨ ∃ b ∈ l, l.foldl failMaxStep init = b.Failures := by
  induction l with
  | nil => intro init; exact Or.inl rfl
  | cons a l ih =>
    intro init
    rw [List.foldl_cons]
    rcases ih (failMaxStep init a) with h | ⟨b, hb, he⟩
    · rw [h]
      unfold failMaxStep
      split_ifs with hc
      · exact Or.inr ⟨a, List.mem_cons_self a l, rfl⟩
      · exact Or.inl rfl
    · exact Or.inr ⟨b, List.mem_cons_of_mem a hb, he⟩

/-- C1 (counterexample): in the window `[incomplete with 5 failures,
complete with 2 failures]`, the `max` actually used by `RenderHistory` is
5, not the complete-builds-only value 2 the claim asserts, and the
resulting glyph for the 2-failure build is `sparks[3]` rather than the
`sparks[7]` the claimed max would give. -/
theorem renderHistory_max_counterexample :
    windowMax (historyWindow exBuildsC1 2) = 5 ∧
    specCompleteMax (historyWindow exBuildsC1 2) = 2 ∧
    RenderHistory exBuildsC1 2 = [Glyph.building, Glyph.spark 3] ∧
    Glyph.spark (sparkIndex 2 2) = Glyph.spark 7 := by
  refine ⟨rfl, rfl, rfl, rfl⟩

/-- C1 (amended): the bucketing maximum used by `RenderHistory` is the
largest `Failures` value over ALL builds of the displayed window
(incomplete builds included), clamped below at 0: every build of the
window, complete or not, bounds it from below, and it is either 0 or the
`Failures` value of some build of the window. -/
theorem renderHistory_max_scan_amended (bs : List Build) (count : Nat) :
    (∀ b ∈ historyWindow bs count, b.Failures ≤ windowMax (historyWindow bs count)) ∧
    0 ≤ windowMax (historyWindow bs count) ∧
    (windowMax (historyWindow bs count) = 0 ∨
      ∃ b ∈ historyWindow bs count, windowMax (historyWindow bs count) = b.Failures) :=
  ⟨fun b hb => mem_le_foldl_failMaxStep _ 0 b hb,
   le_foldl_failMaxStep _ 0,
   foldl_failMaxStep_attained _ 0⟩

/-- C7: whenever `FetchDetails` reports an error — transport failure,
decode failure, missing/non-string `result`, or missing/non-integer
`timestamp` — the build is returned exactly as it came in: no field has
been assigned. -/
theorem fetchDetails_error_atomic (b : Build) (resp : Except FetchErr JsonObject)
    (h : ((FetchDetails b resp).2).isSome = true) :
    (FetchDetails b resp).1 = b := by
  cases resp with
  | error e => rfl
  | ok details =>
    simp only [FetchDetails] at h ⊢
    cases hr : GetString details "result" with
    | none => simp [hr]
    | some r =>
      cases ht : GetInt64 details "timestamp" with
      | none => simp [hr, ht]
      | some ts => simp [hr, ht] at h

/-- Witness for C7 at a concrete transport failure on the stub build. -/
theorem fetchDetails_error_atomic_witness :
    (FetchDetails exStub (Except.error FetchErr.network)).1 = exStub :=
  fetchDetails_error_atomic exStub (Except.error FetchErr.network) rfl

/-! ### Helper lemmas about the failure-count scan -/

/-- A matching action overwrites the accumulator with its `failCount`. -/
theorem failScanStep_pos (a : JVal) (h : isTestResultAction a = true) (init : Int) :
    failScanStep init a = ((AsJsonObject a).bind (fun o => GetInt64 o "failCount")).getD 0 := by
  unfold isTestResultAction at h
  unfold failScanStep
  cases hobj : AsJsonObject a with
  | none =>
    rw [hobj] at h
    dsimp only at h
    exact Bool.noConfusion h
  | some action =>
    rw [hobj] at h
    dsimp only at h ⊢
    cases hcls : GetString action "_class" with
    | none =>
      rw [hcls] at h
      dsimp only at h
      exact Bool.noConfusion h
    | some cls =>
      rw [hcls] at h
      dsimp only at h ⊢
      rw [if_pos (eq_of_beq h)]
      rfl

/-- A non-matching entry leaves the accumulator unchanged. -/
theorem failScanStep_neg (a : JVal) (h : isTestResultAction a = false) (init : Int) :
    failScanStep init a = init := by
  unfold isTestResultAction at h
  unfold failScanStep
  cases hobj : AsJsonObject a with
  | none => dsimp only
  | some action =>
    rw [hobj] at h
    dsimp only at h ⊢
    cases hcls : GetString action "_class" with
    | none => dsimp only
    | some cls =>
      rw [hcls] at h
      dsimp only at h ⊢
      rw [if_neg (fun hc => by simp [hc] at h)]

/-- The failure-count fold from any accumulator equals the `failCount` of
the last matching action, or the accumulator when none matches. -/
theorem foldl_failScanStep_last (actions : List JVal) : ∀ init : Int,
    actions.foldl failScanStep init =
      match (actions.filter isTestResultAction).getLast? with
      | none => init
      | some a => ((AsJsonObject a).bind (fun o => GetInt64 o "failCount")).getD 0 := by
  induction actions using List.reverseRecOn with
  | nil => intro init; rfl
  | append_singleton l x ih =>
    intro init
    rw [List.foldl_append, List.foldl_cons, List.foldl_nil, List.filter_append]
    cases hx : isTestResultAction x with
    | true =>
      have hfil : List.filter isTestResultAction [x] = [x] := by simp [hx]
      rw [hfil, List.getLast?_concat]
      exact failScanStep_pos x hx _
    | false =>
      have hfil : List.filter isTestResultAction [x] = [] := by simp [hx]
      rw [hfil, List.append_nil, failScanStep_neg x hx]
      exact ih init

/-- The imperative accumulate-and-overwrite scan computes exactly the
`failCount` of the last test-result action (later entries win). -/
theorem extractFailures_eq_specLastFailCount (actions : List JVal) :
    extractFailures actions = specLastFailCount actions := by
  unfold extractFailures specLastFailCount
  exact foldl_failScanStep_last actions 0

/-- C2 (counterexample): with a test-result action reporting
`failCount = -1` and overall result `SUCCESS`, `FetchDetails` stores
`failures = -1` although the extracted count is not zero and the result
is not a failure outcome, refuting the claimed "if and only if". -/
theorem fetchDetails_sentinel_counterexample :
    extractFailures ((GetArray exDetailsC2 "actions").getD []) = -1 ∧
    GetString exDetailsC2 "result" = some "SUCCESS" ∧
    (FetchDetails exStub (Except.ok exDetailsC2)).1.Failures = -1 := by
  refine ⟨rfl, rfl, rfl⟩

/-- C2 (amended): the failure count is the `failCount` of the last
test-result action (later entries overwrite earlier ones), and the stored
`Failures` is `-1` iff that extracted count is zero and the result is
`"FAILURE"`, or the extracted count is itself `-1`; any positive
extracted count is kept unchanged. -/
theorem fetchDetails_sentinel_amended (b : Build) (details : JsonObject)
    (r : String) (ts e : Int)
    (hr : GetString details "result" = some r)
    (ht : GetInt64 details "timestamp" = some ts)
    (he : extractFailures ((GetArray details "actions").getD []) = e) :
    e = specLastFailCount ((GetArray details "actions").getD []) ∧
    (FetchDetails b (Except.ok details)).1.Failures = (if e = 0 ∧ r = "FAILURE" then -1 else e) ∧
    ((FetchDetails b (Except.ok details)).1.Failures = -1 ↔
      (e = 0 ∧ r = "FAILURE") ∨ e = -1) ∧
    (0 < e → (FetchDetails b (Except.ok details)).1.Failures = e) := by
  have hfd : (FetchDetails b (Except.ok details)).1.Failures =
      (if e = 0 ∧ r = "FAILURE" then -1 else e) := by
    simp only [FetchDetails, hr, ht, he]
  refine ⟨he ▸ extractFailures_eq_specLastFailCount _, hfd, ?_, ?_⟩
  · rw [hfd]
    split_ifs with h
    · exact ⟨fun _ => Or.inl h, fun _ => rfl⟩
    · constructor
      · intro h2; exact Or.inr h2
      · rintro (h2 | h2)
        · exact absurd h2 h
        · exact h2
  · intro hpos
    rw [hfd, if_neg (fun hc => by omega)]

/-- Witness for C2 (amended) at a failed run with no test-result action:
the sentinel `-1` is stored. -/
theorem fetchDetails_sentinel_amended_witness :
    (FetchDetails exStub (Except.ok exDetailsFail)).1.Failures = -1 :=
  ((fetchDetails_sentinel_amended exStub exDetailsFail "FAILURE" 1500 0
      (by decide) (by decide) (by decide)).2.2.1).mpr (Or.inl ⟨rfl, rfl⟩)

/-! ### Folder skipping -/

/-- C3: a folder listing whose `_class` is absent, not a string, or any
value other than `com.cloudbees.hudson.plugins.folder.Folder` contributes
zero jobs, and `FetchJobs` carries on over the remaining folders exactly
as if that folder were not configured — a silent skip, not an error. -/
theorem fetchJobs_skips_untagged_folder (processJob : JVal → Option Job)
    (folder : JsonObject) (pre post : List (Except FetchErr JsonObject))
    (h : GetString folder "_class" ≠ some "com.cloudbees.hudson.plugins.folder.Folder") :
    ProcessFolder processJob (Except.ok folder) = [] ∧
    FetchJobs processJob (pre ++ Except.ok folder :: post) =
      FetchJobs processJob (pre ++ post) := by
  have hempty : ProcessFolder processJob (Except.ok folder) = [] := by
    unfold ProcessFolder
    dsimp only
    cases hc : GetString folder "_class" with
    | none => rfl
    | some cls =>
      dsimp only
      rw [if_neg (fun he : cls = "com.cloudbees.hudson.plugins.folder.Folder" =>
        h (by rw [hc, he]))]
  refine ⟨hempty, ?_⟩
  unfold FetchJobs
  rw [List.foldl_append, List.foldl_append, List.foldl_cons, hempty, List.append_nil]

/-- Witness for C3: prepending a listing tagged `hudson.model.ListView`
(with a perfectly well-formed `jobs` array) in front of a tagged folder
changes nothing in the produced job list. -/
theorem fetchJobs_skips_untagged_folder_witness :
    FetchJobs exProcessJob [Except.ok exBadFolder, Except.ok exGoodFolder] =
      FetchJobs exProcessJob [Except.ok exGoodFolder] :=
  (fetchJobs_skips_untagged_folder exProcessJob exBadFolder []
    [Except.ok exGoodFolder] (by decide)).2

/-! ### Build-list ordering -/

/-- C5: whatever the ordering of the raw `builds` array, every job that
`ProcessJobObject` produces has its `Builds` non-decreasing by `Id`. -/
theorem processJobObject_builds_sorted (exclude : List (String → Bool)) (v : JVal)
    (fetch : String → Except FetchErr JsonObject) (j : Job)
    (h : ProcessJobObject exclude v fetch = some j) :
    List.Sorted buildLe j.Builds := by
  unfold ProcessJobObject at h
  repeat' split at h
  all_goals first
    | exact Option.noConfusion h
    | (cases h; exact List.sorted_insertionSort buildLe _)

/-- Witness for C5 at a raw array listing build 2 before build 1: the
produced job carries them in ascending id order. -/
theorem processJobObject_builds_sorted_witness :
    List.Sorted buildLe exJobOut.Builds :=
  processJobObject_builds_sorted [] exJobObj (fun _ => Except.ok exJobDetails)
    exJobOut (by decide)

/-! ### Integer accessor equivalence -/

/-- C8: a logical integer `n` (exactly representable as a float64, which
the bound `|n| ≤ 2^53` guarantees) decodes to the same `(n, true)` result
through `GetInt64` whether the stored JSON value is the float64 encoding
of `n` or the arbitrary-precision `json.Number` encoding of `n`. -/
theorem getInt64_representation_equivalence (key : String) (n : Int)
    (h : n.natAbs ≤ 9007199254740992) :
    GetInt64 [(key, JVal.float64 n)] key = some n ∧
    GetInt64 [(key, JVal.number n)] key = some n := by
  have hrange : -9223372036854775808 ≤ n ∧ n < 9223372036854775808 := by omega
  constructor
  · simp [GetInt64, jlookup, List.lookup]
  · simp only [GetInt64, jlookup, List.lookup, beq_self_eq_true]
    rw [if_pos hrange]

/-- Witness for C8 at `n = 42` under the key `"k"`. -/
theorem getInt64_representation_equivalence_witness :
    GetInt64 [("k", JVal.float64 42)] "k" = some 42 ∧
    GetInt64 [("k", JVal.number 42)] "k" = some 42 :=
  getInt64_representation_equivalence "k" 42 (by decide)

/-! ### Quantization bounds -/

/-- Bounds for the quantized index: for `1 ≤ f ≤ mx` the index
`1 + ⌊6·f/mx⌋` lies in `[1, 7]`. -/
theorem sparkIndex_bounds (f mx : Int) (h1 : 1 ≤ f) (h2 : f ≤ mx) :
    1 ≤ sparkIndex f mx ∧ sparkIndex f mx ≤ 7 := by
  have hmx : 0 < mx := by omega
  unfold sparkIndex
  rw [Int.tdiv_eq_ediv (by omega) (by omega)]
  have hnn : 0 ≤ 6 * f / mx := Int.ediv_nonneg (by omega) (by omega)
  have hmono : 6 * f / mx ≤ 6 * mx / mx := Int.ediv_le_ediv hmx (by omega)
  have hcan : 6 * mx / mx = 6 := Int.mul_ediv_cancel 6 (by omega)
  constructor <;> linarith

/-- Monotonicity of the quantized index in the failure count, for a fixed
positive window maximum. -/
theorem sparkIndex_mono (f g mx : Int) (h1 : 0 ≤ f) (hfg : f ≤ g) (hmx : 0 < mx) :
    sparkIndex f mx ≤ sparkIndex g mx := by
  unfold sparkIndex
  rw [Int.tdiv_eq_ediv (by omega) (by omega), Int.tdiv_eq_ediv (by omega) (by omega)]
  have := Int.ediv_le_ediv hmx (show 6 * f ≤ 6 * g by omega)
  linarith

/-- C4: in the render loop for complete builds, `failures = 0` selects
glyph index 0 and `failures = -1` selects glyph index 7; for positive
failure counts `f ≤ g ≤ max` the quantized index lies in `[1, 7]` and is
non-decreasing in the failure count. -/
theorem renderHistory_quantization (mx f g : Int) (b0 bneg : Build)
    (hc0 : b0.Complete = true) (hf0 : b0.Failures = 0)
    (hcn : bneg.Complete = true) (hfn : bneg.Failures = -1)
    (h1 : 1 ≤ f) (hfg : f ≤ g) (hg : g ≤ mx) :
    buildGlyph mx b0 = Glyph.spark 0 ∧
    buildGlyph mx bneg = Glyph.spark 7 ∧
    (1 ≤ sparkIndex f mx ∧ sparkIndex f mx ≤ 7) ∧
    (1 ≤ sparkIndex g mx ∧ sparkIndex g mx ≤ 7) ∧
    sparkIndex f mx ≤ sparkIndex g mx := by
  refine ⟨?_, ?_, sparkIndex_bounds f mx h1 (by omega),
    sparkIndex_bounds g mx (by omega) hg, sparkIndex_mono f g mx (by omega) hfg (by omega)⟩
  · simp [buildGlyph, hc0, hf0]
  · simp [buildGlyph, hcn, hfn]

/-- Witness for C4 at `max = 2` with failure counts 1 and 2. -/
theorem renderHistory_quantization_witness :
    buildGlyph 2 exPassBuild = Glyph.spark 0 ∧
    buildGlyph 2 exSentinelBuild = Glyph.spark 7 ∧
    (1 ≤ sparkIndex 1 2 ∧ sparkIndex 1 2 ≤ 7) ∧
    (1 ≤ sparkIndex 2 2 ∧ sparkIndex 2 2 ≤ 7) ∧
    sparkIndex 1 2 ≤ sparkIndex 2 2 :=
  renderHistory_quantization 2 1 2 exPassBuild exSentinelBuild (by decide) (by decide)
    (by decide) (by decide) (by decide) (by decide) (by decide)

/-- C10: a complete build with positive `Failures` that lies in the
displayed window is always quantized through the default branch to an
index within `[1, 7]` — inside the 8-glyph alphabet — because its own
`Failures` value participates in the same window's max scan. -/
theorem renderHistory_index_safe (bs : List Build) (count : Nat) (b : Build)
    (hb : b ∈ historyWindow bs count) (hc : b.Complete = true) (hf : 0 < b.Failures) :
    buildGlyph (windowMax (historyWindow bs count)) b =
      Glyph.spark (sparkIndex b.Failures (windowMax (historyWindow bs count))) ∧
    1 ≤ sparkIndex b.Failures (windowMax (historyWindow bs count)) ∧
    sparkIndex b.Failures (windowMax (historyWindow bs count)) ≤ 7 := by
  have hle : b.Failures ≤ windowMax (historyWindow bs count) :=
    mem_le_foldl_failMaxStep _ 0 b hb
  have hbounds := sparkIndex_bounds b.Failures (windowMax (historyWindow bs count))
    (by omega) hle
  refine ⟨?_, hbounds.1, hbounds.2⟩
  have h0 : ¬ b.Failures = 0 := by omega
  have h1 : ¬ b.Failures = -1 := by omega
  simp [buildGlyph, hc, h0, h1]

/-- Witness for C10 on a singleton window holding the 2-failure build. -/
theorem renderHistory_index_safe_witness :
    buildGlyph (windowMax (historyWindow exWindowBuilds 1)) exPositiveBuild =
      Glyph.spark (sparkIndex exPositiveBuild.Failures
        (windowMax (historyWindow exWindowBuilds 1))) ∧
    1 ≤ sparkIndex exPositiveBuild.Failures (windowMax (historyWindow exWindowBuilds 1)) ∧
    sparkIndex exPositiveBuild.Failures (windowMax (historyWindow exWindowBuilds 1)) ≤ 7 :=
  renderHistory_index_safe exWindowBuilds 1 exPositiveBuild (by decide) (by decide) (by decide)

/-! ### Retention truncation -/

/-- C6: truncating a sorted build list under a nonnegative retention
window succeeds, leaves `min n maxBuilds` builds, and the kept builds are
a suffix whose ids dominate every dropped build's id — exactly the
`maxBuilds` highest-id builds of the pre-truncation list. -/
theorem truncate_retains_highest (bs : List Build) (m : Int)
    (hm : 0 ≤ m) (hs : List.Sorted buildLe bs) :
    ∃ kept dropped, TruncateBuilds bs m = some kept ∧
      bs = dropped ++ kept ∧
      kept.length = min bs.length m.toNat ∧
      ∀ d ∈ dropped, ∀ k ∈ kept, d.Id ≤ k.Id := by
  unfold TruncateBuilds
  by_cases hlen : (bs.length : Int) > m
  · have hcond : (0 : Int) ≤ (bs.length : Int) - m ∧
        (bs.length : Int) - m ≤ (bs.length : Int) := by omega
    rw [if_pos hlen]
    dsimp only
    rw [if_pos hcond]
    refine ⟨bs.drop ((bs.length : Int) - m).toNat, bs.take ((bs.length : Int) - m).toNat,
      rfl, (List.take_append_drop _ bs).symm, ?_, ?_⟩
    · rw [List.length_drop]
      omega
    · intro d hd k hk
      have hs2 : List.Pairwise buildLe
          (bs.take ((bs.length : Int) - m).toNat ++ bs.drop ((bs.length : Int) - m).toNat) := by
        rw [List.take_append_drop]
        exact hs
      exact (List.pairwise_append.mp hs2).2.2 d hd k hk
  · rw [if_neg hlen]
    refine ⟨bs, [], rfl, rfl, ?_, fun d hd => absurd hd (List.not_mem_nil d)⟩
    omega

/-- Witness for C6: of the sorted three-build list with ids 1, 2, 3 and
window 2, exactly the two highest-id builds survive. -/
theorem truncate_retains_highest_witness :
    ∃ kept dropped, TruncateBuilds exBuildsTrunc 2 = some kept ∧
      exBuildsTrunc = dropped ++ kept ∧
      kept.length = min exBuildsTrunc.length (2 : Int).toNat ∧
      ∀ d ∈ dropped, ∀ k ∈ kept, d.Id ≤ k.Id :=
  truncate_retains_highest exBuildsTrunc 2 (by decide) (by decide)

/-- C9: the slice `j.Builds[len-maxBuilds:]` in the truncation step never
goes out of range exactly when `maxBuilds ≥ 0`; for any negative
`maxBuilds` the start index exceeds the length and the step panics, on
every build list with at least one build (indeed on every build list). -/
theorem truncate_nonneg_safety (m : Int) :
    ((∀ bs : List Build, (TruncateBuilds bs m).isSome = true) ↔ 0 ≤ m) ∧
    (m < 0 → ∀ bs : List Build, bs ≠ [] → TruncateBuilds bs m = none) := by
  have hneg : ∀ bs : List Build, m < 0 → TruncateBuilds bs m = none := by
    intro bs hm
    unfold TruncateBuilds
    rw [if_pos (by omega)]
    dsimp only
    rw [if_neg (by omega)]
  constructor
  · constructor
    · intro hall
      by_contra hm
      have hx := hall []
      rw [hneg [] (by omega)] at hx
      exact Bool.noConfusion hx
    · intro hm bs
      unfold TruncateBuilds
      dsimp only
      split_ifs with h1 h2
      · rfl
      · exact absurd ⟨by omega, by omega⟩ h2
      · rfl
  · intro hm bs _
    exact hneg bs hm

/-- Witness for C9: `maxBuilds = -1` on a one-build list panics. -/
theorem truncate_nonneg_safety_witness :
    TruncateBuilds [exStub] (-1) = none :=
  (truncate_nonneg_safety (-1)).2 (by decide) [exStub] (by decide)

end Jitdash
